import Mathlib

/-!
Shallow embedding of the EQL core entity-resolution pipeline
(`crates/core/src/interpreter/backend/resolve_transaction.rs` and
`crates/core/src/interpreter/backend/resolve_account.rs`).

Remote interaction is modelled by a writer-plus-error monad `M α`:
every computation returns the list of remote calls it issued together
with an `Outcome` that is either a value, a typed error (Rust `Err`),
or a panic (Rust `panic!`).  Providers are pure response functions, so
the embedding is deterministic; `try_join_all` is modelled as the
left-to-right sequential join with first-failure short-circuit, which
is the deterministic rendering of its success/failure contract.
-/

/-- Addresses, 32-byte hashes and uint256 values are modelled as `Nat`. -/
abbrev Address := Nat

abbrev B256 := Nat

/-- A chain known by symbolic name (`common/chain.rs`, modelled from the spec:
the repository enumerates well-known networks; two variants suffice here). -/
inductive Chain where
  | Ethereum
  | Polygon
  deriving DecidableEq

/-- `ChainOrRpc`: a network given by symbolic name or by explicit RPC URL. -/
inductive ChainOrRpc where
  | Chain (c : Chain)
  | Rpc (url : String)
  deriving DecidableEq

/-- `alloy::eips::BlockNumberOrTag`, restricted to the shapes the core uses. -/
inductive BlockNumberOrTag where
  | Number (n : Nat)
  | Latest
  deriving DecidableEq

/-- `BlockRange` (`common/block.rs`, modelled from the spec: a block-number
range, possibly open-ended). -/
structure BlockRange where
  start : BlockNumberOrTag
  stop : Option BlockNumberOrTag
  deriving DecidableEq

/-- `BlockId`: either a single block number or a block-number range. -/
inductive BlockId where
  | Number (n : BlockNumberOrTag)
  | Range (r : BlockRange)
  deriving DecidableEq

/-- Signature data carried on an RPC transaction (v, r, s, y-parity). -/
structure Signature where
  v : Nat
  r : Nat
  s : Nat
  y_parity : Option Bool
  deriving DecidableEq

/-- `alloy::rpc::types::Transaction`: the fetched transaction object.
Mandatory fields are plain values, optional ones are `Option`, exactly as
they are consumed by `pick_transaction_fields`. -/
structure RpcTransaction where
  transaction_type : Option Nat
  hash : B256
  «from» : Address
  «to» : Option Address
  input : List Nat
  value : Nat
  gas_price : Option Nat
  gas : Nat
  chain_id : Option Nat
  signature : Option Signature
  max_fee_per_blob_gas : Option Nat
  max_fee_per_gas : Option Nat
  max_priority_fee_per_gas : Option Nat
  deriving DecidableEq

/-- A transaction receipt; `receipt.status()` is the success flag. -/
structure Receipt where
  status : Bool
  deriving DecidableEq

/-- `alloy::rpc::types::BlockTransactions`: embedded transactions of a block,
either full bodies or hashes only (or uncle blocks with neither). -/
inductive BlockTransactions where
  | Full (txs : List RpcTransaction)
  | Hashes (hs : List B256)
  | Uncle
  deriving DecidableEq

/-- A fetched block, reduced to the single field the core reads. -/
structure Block where
  transactions : BlockTransactions
  deriving DecidableEq

/-- `TransactionQueryRes` (`common/query_result.rs`): one optional slot per
possible transaction field, all starting empty. -/
structure TransactionQueryRes where
  chain : Option Chain := none
  transaction_type : Option Nat := none
  hash : Option B256 := none
  «from» : Option Address := none
  «to» : Option Address := none
  data : Option (List Nat) := none
  value : Option Nat := none
  gas_price : Option Nat := none
  gas : Option Nat := none
  status : Option Bool := none
  chain_id : Option Nat := none
  v : Option Nat := none
  r : Option Nat := none
  s : Option Nat := none
  max_fee_per_blob_gas : Option Nat := none
  max_fee_per_gas : Option Nat := none
  max_priority_fee_per_gas : Option Nat := none
  y_parity : Option Bool := none
  deriving DecidableEq

instance : Inhabited TransactionQueryRes := ⟨{}⟩

/-- `TransactionField`: the requested output columns for transactions. -/
inductive TransactionField where
  | TransactionType
  | Hash
  | From
  | To
  | Data
  | Value
  | GasPrice
  | Gas
  | Status
  | ChainId
  | V
  | R
  | S
  | MaxFeePerBlobGas
  | MaxFeePerGas
  | MaxPriorityFeePerGas
  | YParity
  | Chain
  deriving DecidableEq

/-- `AccountField`: the requested output columns for accounts. -/
inductive AccountField where
  | Balance
  | Nonce
  | Address
  | Code
  deriving DecidableEq

/-- `AccountQueryRes`: one optional slot per possible account field. -/
structure AccountQueryRes where
  balance : Option Nat := none
  nonce : Option Nat := none
  address : Option Address := none
  code : Option (List Nat) := none
  deriving DecidableEq

instance : Inhabited AccountQueryRes := ⟨{}⟩

/-- `NameOrAddress` (`common/ens.rs`): a raw address or a name to resolve. -/
inductive NameOrAddress where
  | Address (a : Address)
  | Name (n : String)
  deriving DecidableEq

/-- `EntityId` (`common/entity_id.rs`, modelled from the spec: a tagged
identifier naming what is being queried — account, block or transaction). -/
inductive EntityId where
  | Account (noa : NameOrAddress)
  | Block (b : BlockId)
  | Transaction (h : B256)
  deriving DecidableEq

/-- The typed errors surfaced by the two resolvers
(`TransactionResolverErrors`, `AccountResolverErrors`) together with
wrapped provider errors (spec category (d)). -/
inductive Err where
  | MissingTransactionHashOrFilter
  | TxMismatchEntityAndEntityId (id : String)
  | MismatchEntityAndEntityId
  | EnsResolution
  | Provider (msg : String)
  deriving DecidableEq

/-- Result of one remote interaction or of a whole resolver run: a value,
a typed error, or a panic (Rust `panic!` unwinding, not a typed error). -/
inductive Outcome (α : Type) where
  | ok (a : α)
  | err (e : Err)
  | panic (msg : String)
  deriving DecidableEq

/-- `true` exactly on the typed-error outcome (not on `ok`, not on a panic). -/
def Outcome.isTypedError : Outcome α → Bool
  | .err _ => true
  | _ => false

/-- `true` exactly on the success outcome. -/
def Outcome.isOk : Outcome α → Bool
  | .ok _ => true
  | _ => false

/-- Extract the success value, with a fallback. -/
def Outcome.okOr (o : Outcome α) (d : α) : α :=
  match o with
  | .ok a => a
  | _ => d

/-- One observable remote interaction (network call or provider build). -/
inductive Call where
  | buildProvider (url : String)
  | getTransactionByHash (h : B256)
  | getTransactionReceipt (h : B256)
  | getBalance (a : Address)
  | getTransactionCount (a : Address)
  | getCodeAt (a : Address)
  | getBlock (n : BlockNumberOrTag) (full : Bool)
  | batchGetBlocks (ns : List Nat) (full : Bool)
  | resolveBlockNumbers (r : BlockRange)
  | ensResolve (name : String)
  | toChain (c : ChainOrRpc)
  deriving DecidableEq

/-- The effect monad of the embedding: the calls issued so far paired with
the outcome. -/
def M (α : Type) : Type := List Call × Outcome α

/-- Return: no calls, success. -/
def M.pure (a : α) : M α := ([], .ok a)

/-- Sequencing: traces concatenate; errors and panics short-circuit. -/
def M.bind (x : M α) (f : α → M β) : M β :=
  match x with
  | (tr, .ok a) => ((tr ++ (f a).1 : List Call), (f a).2)
  | (tr, .err e) => (tr, .err e)
  | (tr, .panic m) => (tr, .panic m)

/-- Embed a pure outcome (no remote interaction). -/
def M.ofOutcome (o : Outcome α) : M α := ([], o)

/-- Perform one remote call and record it. -/
def M.lift (c : Call) (o : Outcome α) : M α := ([c], o)

/-- `futures::future::try_join_all`, rendered deterministically: join the
computations left to right, collecting all values, stopping at the first
error or panic. -/
def try_join_all : List (M α) → M (List α)
  | [] => M.pure []
  | x :: rest => M.bind x fun a => M.bind (try_join_all rest) fun tl => M.pure (a :: tl)

/-- A provider capability (`RootProvider<Http<Client>>` plus the Block
Resolver capabilities of `resolve_block.rs`, modelled from the spec:
`get_block`, `batch_get_blocks` and `resolve_block_numbers` live outside
`src/` and are consumed at their interface boundary). -/
structure RootProvider where
  get_transaction_by_hash : B256 → Outcome (Option RpcTransaction)
  get_transaction_receipt : B256 → Outcome (Option Receipt)
  get_balance : Address → Outcome Nat
  get_transaction_count : Address → Outcome Nat
  get_code_at : Address → Outcome (List Nat)
  get_block : BlockNumberOrTag → Bool → Outcome Block
  batch_get_blocks : List Nat → Bool → Outcome (List Block)
  resolve_block_numbers : BlockRange → Outcome (List Nat)

/-- The external world the resolvers run against: URL lookup for a chain
descriptor, provider construction, chain-descriptor conversion
(`ChainOrRpc::to_chain`, modelled from the spec: fallible, outside `src/`),
and the canonical-chain ENS capability used by the Name Resolver
(`Chain::Ethereum.rpc_url().parse()` success plus `NameOrAddress::resolve`
against the canonical provider). -/
structure Env where
  rpc_url : ChainOrRpc → Outcome String
  on_http : String → RootProvider
  to_chain : ChainOrRpc → Outcome Chain
  eth_url_parses : Bool
  ens_resolve : String → Outcome Address

/-- Predicate filters (`common/filters.rs`, modelled from the spec:
per-field comparison or equality constraints). -/
inductive NumFilter where
  | eq (v : Nat)
  | lte (v : Nat)
  | gte (v : Nat)
  deriving DecidableEq

/-- `TransactionFilter` (`common/transaction.rs`, modelled from the spec:
a block-id source filter plus value/from/to/gas/gas-price/status
predicates). -/
inductive TransactionFilter where
  | blockId (b : BlockId)
  | value (f : NumFilter)
  | fromAddr (a : Address)
  | toAddr (a : Address)
  | gas (f : NumFilter)
  | gasPrice (f : NumFilter)
  | status (b : Bool)
  deriving DecidableEq

/-- Evaluate a numeric predicate. -/
def NumFilter.eval : NumFilter → Nat → Bool
  | .eq v, x => x = v
  | .lte v, x => x ≤ v
  | .gte v, x => v ≤ x

/-- Modelled from the spec: a predicate filter evaluated against a
projected record after fetch; the block-id entry only selects the source
set, so it passes every record. -/
def TransactionFilter.eval (f : TransactionFilter) (res : TransactionQueryRes) : Bool :=
  match f with
  | .blockId _ => true
  | .value nf => match res.value with | some x => nf.eval x | none => false
  | .fromAddr a => res.«from» = some a
  | .toAddr a => res.«to» = some a
  | .gas nf => match res.gas with | some x => nf.eval x | none => false
  | .gasPrice nf => match res.gas_price with | some x => nf.eval x | none => false
  | .status b => res.status = some b

/-- The transaction entity expression (`common/transaction.rs`, modelled
from the spec: optional explicit id list, optional filter list, requested
field list). -/
structure Transaction where
  ids : Option (List B256)
  filters : Option (List TransactionFilter)
  fields : List TransactionField

/-- Modelled from the spec: `Transaction::has_block_filter` — whether the
filter list contains a block-id entry. -/
def Transaction.has_block_filter (t : Transaction) : Bool :=
  match t.filters with
  | some fs => fs.any fun f => match f with | .blockId _ => true | _ => false
  | none => false

/-- Modelled from the spec: `Transaction::get_block_id_filter` — the first
block-id entry of the filter list, or the missing-filter error. -/
def Transaction.get_block_id_filter (t : Transaction) : Outcome BlockId :=
  match t.filters with
  | some fs =>
      match fs.findSome? (fun f => match f with | .blockId b => some b | _ => none) with
      | some b => .ok b
      | none => .err .MissingTransactionHashOrFilter
  | none => .err .MissingTransactionHashOrFilter

/-- Modelled from the spec: `Transaction::filter` — a record passes iff it
satisfies every predicate of the filter list. -/
def Transaction.filter (t : Transaction) (res : TransactionQueryRes) : Bool :=
  match t.filters with
  | some fs => fs.all fun f => f.eval res
  | none => true

/-- `get_transactions_by_ids`: fetch each hash concurrently, fail on the
first provider error, then drop the not-found (`None`) entries. -/
def get_transactions_by_ids (ids : List B256) (provider : RootProvider) :
    M (List RpcTransaction) :=
  M.bind
    (try_join_all (ids.map fun id =>
      M.lift (.getTransactionByHash id) (provider.get_transaction_by_hash id)))
    fun tx_res => M.pure (tx_res.filterMap id)

/-- The `match &block.transactions` of `get_transactions_by_block_id`:
full bodies are returned, anything else hits
`panic!("Block transactions should be full")`. -/
def fullTxs : BlockTransactions → Outcome (List RpcTransaction)
  | .Full txs => .ok txs
  | _ => .panic "Block transactions should be full"

/-- The `flat_map` of the range branch: flatten the full transactions of
every block in order, panicking at the first block that is not full. -/
def flattenFullTxs : List Block → Outcome (List RpcTransaction)
  | [] => .ok []
  | b :: rest =>
      match fullTxs b.transactions with
      | .ok txs =>
          match flattenFullTxs rest with
          | .ok tl => .ok (txs ++ tl)
          | .err e => .err e
          | .panic m => .panic m
      | .err e => .err e
      | .panic m => .panic m

/-- `get_transactions_by_block_id`: one full block for a single number;
for a range, resolve the numbers, batch-fetch the blocks, and flatten
their embedded full transactions. -/
def get_transactions_by_block_id (block_id : BlockId) (provider : RootProvider) :
    M (List RpcTransaction) :=
  match block_id with
  | .Number n =>
      M.bind (M.lift (.getBlock n true) (provider.get_block n true)) fun block =>
        M.ofOutcome (fullTxs block.transactions)
  | .Range r =>
      M.bind (M.lift (.resolveBlockNumbers r) (provider.resolve_block_numbers r))
        fun block_numbers =>
      M.bind (M.lift (.batchGetBlocks block_numbers true)
                (provider.batch_get_blocks block_numbers true))
        fun blocks =>
      M.ofOutcome (flattenFullTxs blocks)

/-- The per-field loop of `pick_transaction_fields`: each requested field
writes its slot of the result record; `Status` first fetches the receipt
(a missing receipt leaves the slot unset). -/
def pick_fields_loop (tx : RpcTransaction) (fields : List TransactionField)
    (provider : RootProvider) (chain : Chain) (result : TransactionQueryRes) :
    M TransactionQueryRes :=
  match fields with
  | [] => M.pure result
  | field :: rest =>
    match field with
    | .TransactionType =>
        pick_fields_loop tx rest provider chain
          { result with transaction_type := tx.transaction_type }
    | .Hash =>
        pick_fields_loop tx rest provider chain { result with hash := some tx.hash }
    | .From =>
        pick_fields_loop tx rest provider chain { result with «from» := some tx.«from» }
    | .To =>
        pick_fields_loop tx rest provider chain { result with «to» := tx.«to» }
    | .Data =>
        pick_fields_loop tx rest provider chain { result with data := some tx.input }
    | .Value =>
        pick_fields_loop tx rest provider chain { result with value := some tx.value }
    | .GasPrice =>
        pick_fields_loop tx rest provider chain { result with gas_price := tx.gas_price }
    | .Gas =>
        pick_fields_loop tx rest provider chain { result with gas := some tx.gas }
    | .Status =>
        M.bind (M.lift (.getTransactionReceipt tx.hash)
                  (provider.get_transaction_receipt tx.hash)) fun receipt =>
          match receipt with
          | some rc =>
              pick_fields_loop tx rest provider chain
                { result with status := some rc.status }
          | none =>
              pick_fields_loop tx rest provider chain { result with status := none }
    | .ChainId =>
        pick_fields_loop tx rest provider chain { result with chain_id := tx.chain_id }
    | .V =>
        pick_fields_loop tx rest provider chain
          { result with v := tx.signature.map Signature.v }
    | .R =>
        pick_fields_loop tx rest provider chain
          { result with r := tx.signature.map Signature.r }
    | .S =>
        pick_fields_loop tx rest provider chain
          { result with s := tx.signature.map Signature.s }
    | .MaxFeePerBlobGas =>
        pick_fields_loop tx rest provider chain
          { result with max_fee_per_blob_gas := tx.max_fee_per_blob_gas }
    | .MaxFeePerGas =>
        pick_fields_loop tx rest provider chain
          { result with max_fee_per_gas := tx.max_fee_per_gas }
    | .MaxPriorityFeePerGas =>
        pick_fields_loop tx rest provider chain
          { result with max_priority_fee_per_gas := tx.max_priority_fee_per_gas }
    | .YParity =>
        pick_fields_loop tx rest provider chain
          { result with y_parity := tx.signature.bind Signature.y_parity }
    | .Chain =>
        pick_fields_loop tx rest provider chain { result with chain := some chain }

/-- `pick_transaction_fields`: start from the all-empty record, convert the
chain descriptor first (`chain.to_chain().await?`), then run the per-field
loop. -/
def pick_transaction_fields (env : Env) (tx : RpcTransaction)
    (fields : List TransactionField) (provider : RootProvider)
    (chain : ChainOrRpc) : M TransactionQueryRes :=
  M.bind (M.lift (.toChain chain) (env.to_chain chain)) fun chainv =>
    pick_fields_loop tx fields provider chainv {}

/-- The `match transaction.ids()` of the per-chain body: source enumeration
by explicit ids, or by the block filter derived from the spec. -/
def fetch_source (transaction : Transaction) (provider : RootProvider) :
    M (List RpcTransaction) :=
  match transaction.ids with
  | some ids => get_transactions_by_ids ids provider
  | none =>
      M.bind (M.ofOutcome transaction.get_block_id_filter) fun block_id =>
        get_transactions_by_block_id block_id provider

/-- The per-chain body of `resolve_transaction_query`: build the provider,
enumerate the source transactions (by ids or by block filter), project the
fields of each concurrently, filter by the spec's predicates and append to
the accumulator. -/
def resolve_chain_loop (env : Env) (transaction : Transaction)
    (chains : List ChainOrRpc) (all_results : List TransactionQueryRes) :
    M (List TransactionQueryRes) :=
  match chains with
  | [] => M.pure all_results
  | chain :: rest =>
      M.bind (M.ofOutcome (env.rpc_url chain)) fun url =>
      M.bind (M.lift (.buildProvider url) (.ok ())) fun _ =>
      let provider := env.on_http url
      M.bind (fetch_source transaction provider) fun rpc_transactions =>
      M.bind
        (try_join_all (rpc_transactions.map fun t =>
          pick_transaction_fields env t transaction.fields provider chain))
        fun tx_res =>
      let filtered_tx_res := tx_res.filter fun t => transaction.filter t
      resolve_chain_loop env transaction rest (all_results ++ filtered_tx_res)

/-- `resolve_transaction_query`: precondition check (either ids or a block
filter), then the sequential per-chain loop. -/
def resolve_transaction_query (env : Env) (transaction : Transaction)
    (chains : List ChainOrRpc) : M (List TransactionQueryRes) :=
  if !transaction.ids.isSome && !transaction.has_block_filter then
    M.ofOutcome (.err .MissingTransactionHashOrFilter)
  else
    resolve_chain_loop env transaction chains []

/-- Map any typed error to the ENS-resolution error (`map_err`). -/
def mapErrToEns : Outcome α → Outcome α
  | .err _ => .err .EnsResolution
  | o => o

/-- `to_address`: an address passes through untouched; a name is resolved
against the canonical Ethereum chain's provider (built here, independent
of the surrounding query), every failure becoming `EnsResolution`. -/
def to_address (env : Env) (name_or_address : NameOrAddress) : M Address :=
  match name_or_address with
  | .Address a => M.pure a
  | .Name n =>
      if env.eth_url_parses then
        M.bind (M.lift (.buildProvider "ethereum-canonical") (.ok ())) fun _ =>
          M.lift (.ensResolve n) (mapErrToEns (env.ens_resolve n))
      else
        M.ofOutcome (.err .EnsResolution)

/-- The per-field loop of `get_account`: each requested field issues its
remote call (or echoes the address) and stores the value. -/
def get_account_loop (address : Address) (fields : List AccountField)
    (provider : RootProvider) (account : AccountQueryRes) : M AccountQueryRes :=
  match fields with
  | [] => M.pure account
  | .Balance :: rest =>
      M.bind (M.lift (.getBalance address) (provider.get_balance address)) fun b =>
        get_account_loop address rest provider { account with balance := some b }
  | .Nonce :: rest =>
      M.bind (M.lift (.getTransactionCount address)
                (provider.get_transaction_count address)) fun n =>
        get_account_loop address rest provider { account with nonce := some n }
  | .Address :: rest =>
      get_account_loop address rest provider { account with address := some address }
  | .Code :: rest =>
      M.bind (M.lift (.getCodeAt address) (provider.get_code_at address)) fun c =>
        get_account_loop address rest provider { account with code := some c }

/-- `get_account`: start from the all-empty record and run the field loop. -/
def get_account (address : Address) (fields : List AccountField)
    (provider : RootProvider) : M AccountQueryRes :=
  get_account_loop address fields provider {}

/-- The async block body of `resolve_account_query`: an `Account` id is
resolved to an address and fetched; any other id kind is the
entity/id-kind mismatch error. -/
def resolve_account_one (env : Env) (provider : RootProvider)
    (fields : List AccountField) (entity_id : EntityId) : M AccountQueryRes :=
  match entity_id with
  | .Account name_or_address =>
      M.bind (to_address env name_or_address) fun address =>
        get_account address fields provider
  | _ => M.ofOutcome (.err .MismatchEntityAndEntityId)

/-- `resolve_account_query`: map every entity id to its future and join
them all (all-or-nothing). -/
def resolve_account_query (env : Env) (entity_ids : List EntityId)
    (fields : List AccountField) (provider : RootProvider) :
    M (List AccountQueryRes) :=
  try_join_all (entity_ids.map (resolve_account_one env provider fields))

/-- The full transaction bodies embedded in a block, empty when the block
carries only hashes. -/
def BlockTransactions.fullList : BlockTransactions → List RpcTransaction
  | .Full txs => txs
  | _ => []

/-- Sample signature used by the concrete witnesses. -/
def sigA : Signature := { v := 27, r := 5, s := 6, y_parity := some true }

/-- Sample fully-populated RPC transaction (hash 1). -/
def txA : RpcTransaction :=
  { transaction_type := some 2, hash := 1, «from» := 2, «to» := some 3,
    input := [7], value := 10, gas_price := some 5, gas := 21000,
    chain_id := some 1, signature := some sigA,
    max_fee_per_blob_gas := none, max_fee_per_gas := some 9,
    max_priority_fee_per_gas := some 4 }

/-- Sample RPC transaction with every optional source datum absent. -/
def txNoSig : RpcTransaction :=
  { transaction_type := none, hash := 1, «from» := 2, «to» := none,
    input := [], value := 0, gas_price := none, gas := 21000,
    chain_id := none, signature := none,
    max_fee_per_blob_gas := none, max_fee_per_gas := none,
    max_priority_fee_per_gas := none }

/-- Sample block with full embedded transactions. -/
def blockA : Block := { transactions := .Full [txA] }

/-- Sample block carrying only transaction hashes. -/
def blockH : Block := { transactions := .Hashes [9] }

/-- Sample provider on which every capability succeeds; hash 1 resolves to
`txA`, every other hash is not found. -/
def provA : RootProvider :=
  { get_transaction_by_hash := fun h => .ok (if h = 1 then some txA else none),
    get_transaction_receipt := fun _ => .ok (some { status := true }),
    get_balance := fun a => .ok (a + 100),
    get_transaction_count := fun _ => .ok 5,
    get_code_at := fun _ => .ok [0],
    get_block := fun _ _ => .ok blockA,
    batch_get_blocks := fun _ _ => .ok [blockA],
    resolve_block_numbers := fun _ => .ok [1] }

/-- Sample provider whose block fetches return hashes-only blocks. -/
def provH : RootProvider :=
  { provA with
    get_block := fun _ _ => .ok blockH,
    batch_get_blocks := fun _ _ => .ok [blockH] }

/-- Sample environment built on `provA`; every capability succeeds. -/
def envA : Env :=
  { rpc_url := fun _ => .ok "u",
    on_http := fun _ => provA,
    to_chain := fun c => match c with | .Chain ch => .ok ch | .Rpc _ => .ok .Ethereum,
    eth_url_parses := true,
    ens_resolve := fun _ => .ok 7 }

/-- Sample environment whose providers return hashes-only blocks. -/
def envH : Env := { envA with on_http := fun _ => provH }

/-- Sample environment whose chain-descriptor conversion fails. -/
def envErr : Env := { envA with to_chain := fun _ => .err (.Provider "boom") }

/-- Sample block range. -/
def rQ : BlockRange := { start := .Number 1, stop := some (.Number 2) }

/-- Sample transaction spec with a block-range filter and no ids. -/
def txQRange : Transaction :=
  { ids := none, filters := some [.blockId (.Range rQ)],
    fields := [TransactionField.Hash] }

/-- Sample transaction spec with an explicit id list containing a
not-found hash (3). -/
def txQIds : Transaction :=
  { ids := some [1, 3], filters := none, fields := [TransactionField.Hash] }

/-- Sample transaction spec with a single-block filter. -/
def txC5 : Transaction :=
  { ids := none, filters := some [.blockId (.Number (.Number 1))],
    fields := [TransactionField.Hash] }

/-- Sample transaction spec with neither ids nor a block filter. -/
def txNone : Transaction :=
  { ids := none, filters := none, fields := [TransactionField.Hash] }

/-- `true` exactly on the panic outcome. -/
def Outcome.isPanic : Outcome α → Bool
  | .panic _ => true
  | _ => false

/-- Sample transaction spec with the single explicit id 1. -/
def txQId1 : Transaction :=
  { ids := some [1], filters := none, fields := [TransactionField.Hash] }

/-- Sample provider on which no transaction has a receipt yet. -/
def provNoRcpt : RootProvider :=
  { provA with get_transaction_receipt := fun _ => .ok none }

/-- Outcome of a sequencing, computed from the outcome of its first stage. -/
lemma M.bind_out (x : M α) (f : α → M β) :
    (M.bind x f).2 = match x.2 with
      | .ok a => (f a).2
      | .err e => .err e
      | .panic m => .panic m := by
  obtain ⟨tr, o⟩ := x
  cases o <;> rfl

/-- Sequencing after a success continues with the value. -/
lemma M.bind_out_ok {x : M α} {a : α} (h : x.2 = .ok a) (f : α → M β) :
    (M.bind x f).2 = (f a).2 := by
  rw [M.bind_out, h]

/-- Sequencing after a typed error short-circuits. -/
lemma M.bind_out_err {x : M α} {e : Err} (h : x.2 = .err e) (f : α → M β) :
    (M.bind x f).2 = .err e := by
  rw [M.bind_out, h]

/-- Sequencing after a panic short-circuits. -/
lemma M.bind_out_panic {x : M α} {m : String} (h : x.2 = .panic m) (f : α → M β) :
    (M.bind x f).2 = .panic m := by
  rw [M.bind_out, h]

/-- When every joined computation succeeds, the join succeeds with the
values in order. -/
lemma try_join_all_map_out {g : α → M β} {f : α → β} :
    ∀ {l : List α}, (∀ x ∈ l, (g x).2 = .ok (f x)) →
    (try_join_all (l.map g)).2 = .ok (l.map f)
  | [], _ => rfl
  | a :: l, h => by
      rw [List.map_cons, try_join_all, M.bind_out_ok (h a (List.mem_cons_self a l))]
      rw [M.bind_out_ok (try_join_all_map_out fun x hx => h x (List.mem_cons_of_mem a hx))]
      rfl

/-- When one joined computation fails with a typed error and none panics,
the join fails with a typed error. -/
lemma try_join_all_map_err {g : α → M β} :
    ∀ {l : List α} {x : α}, x ∈ l →
    (∃ e, (g x).2 = .err e) →
    (∀ y ∈ l, ∀ m, (g y).2 ≠ .panic m) →
    ∃ e, (try_join_all (l.map g)).2 = .err e := by
  intro l
  induction l with
  | nil => intro x hx; exact absurd hx (List.not_mem_nil x)
  | cons a l ih =>
      intro x hx hfail hnp
      rw [List.map_cons, try_join_all]
      cases ha : (g a).2 with
      | ok v =>
          rw [M.bind_out_ok ha]
          rcases List.mem_cons.mp hx with hxa | hxl
          · subst hxa
            obtain ⟨e, he⟩ := hfail
            rw [ha] at he
            exact absurd he (by simp)
          · obtain ⟨e, he⟩ := ih hxl hfail fun y hy => hnp y (List.mem_cons_of_mem a hy)
            exact ⟨e, by rw [M.bind_out_err he]⟩
      | err e => exact ⟨e, M.bind_out_err ha _⟩
      | panic m => exact absurd ha (hnp a (List.mem_cons_self a l) m)

/-- Flattening blocks whose transactions are all full collects the full
bodies in order. -/
lemma flattenFullTxs_ok :
    ∀ (blocks : List Block), (∀ b ∈ blocks, ∃ txs, b.transactions = .Full txs) →
    flattenFullTxs blocks = .ok (blocks.flatMap fun b => b.transactions.fullList)
  | [], _ => rfl
  | b :: bs, h => by
      obtain ⟨txs, hb⟩ := h b (List.mem_cons_self b bs)
      rw [flattenFullTxs, hb]
      rw [flattenFullTxs_ok bs fun x hx => h x (List.mem_cons_of_mem b hx)]
      simp [fullTxs, BlockTransactions.fullList, hb]

/-- Flattening a block list that contains a block without full transaction
bodies panics with the invariant-violation message (the `flat_map` of the
range branch hits the `panic!` at the first such block). -/
lemma flattenFullTxs_panic :
    ∀ (blocks : List Block), (∃ b ∈ blocks, ∀ txs, b.transactions ≠ .Full txs) →
    flattenFullTxs blocks = .panic "Block transactions should be full"
  | [], h => absurd h (by simp)
  | b :: bs, h => by
      cases hbt : b.transactions with
      | Full txs =>
          obtain ⟨b2, hb2, hnf⟩ := h
          rcases List.mem_cons.mp hb2 with rfl | hb2s
          · exact absurd hbt (hnf txs)
          · rw [flattenFullTxs, hbt]
            simp [fullTxs, flattenFullTxs_panic bs ⟨b2, hb2s, hnf⟩]
      | Hashes hs =>
          rw [flattenFullTxs, hbt]
          rfl
      | Uncle =>
          rw [flattenFullTxs, hbt]
          rfl

/-- Full characterization of the field-projection loop: the trace is one
receipt fetch per requested `Status` occurrence, and each result slot holds
the source datum when its field is requested, the accumulator's value
otherwise. -/
lemma pick_fields_loop_spec (tx : RpcTransaction) (p : RootProvider) (ch : Chain)
    {rcpt : Option Receipt} (hrc : p.get_transaction_receipt tx.hash = .ok rcpt) :
    ∀ (fields : List TransactionField) (acc : TransactionQueryRes),
    pick_fields_loop tx fields p ch acc =
      (List.replicate (fields.count .Status) (Call.getTransactionReceipt tx.hash),
       .ok { chain := if TransactionField.Chain ∈ fields then some ch else acc.chain,
             transaction_type := if TransactionField.TransactionType ∈ fields then
               tx.transaction_type else acc.transaction_type,
             hash := if TransactionField.Hash ∈ fields then some tx.hash else acc.hash,
             «from» := if TransactionField.From ∈ fields then some tx.«from» else acc.«from»,
             «to» := if TransactionField.To ∈ fields then tx.«to» else acc.«to»,
             data := if TransactionField.Data ∈ fields then some tx.input else acc.data,
             value := if TransactionField.Value ∈ fields then some tx.value else acc.value,
             gas_price := if TransactionField.GasPrice ∈ fields then
               tx.gas_price else acc.gas_price,
             gas := if TransactionField.Gas ∈ fields then some tx.gas else acc.gas,
             status := if TransactionField.Status ∈ fields then
               rcpt.map Receipt.status else acc.status,
             chain_id := if TransactionField.ChainId ∈ fields then
               tx.chain_id else acc.chain_id,
             v := if TransactionField.V ∈ fields then tx.signature.map Signature.v else acc.v,
             r := if TransactionField.R ∈ fields then tx.signature.map Signature.r else acc.r,
             s := if TransactionField.S ∈ fields then tx.signature.map Signature.s else acc.s,
             max_fee_per_blob_gas := if TransactionField.MaxFeePerBlobGas ∈ fields then
               tx.max_fee_per_blob_gas else acc.max_fee_per_blob_gas,
             max_fee_per_gas := if TransactionField.MaxFeePerGas ∈ fields then
               tx.max_fee_per_gas else acc.max_fee_per_gas,
             max_priority_fee_per_gas := if TransactionField.MaxPriorityFeePerGas ∈ fields then
               tx.max_priority_fee_per_gas else acc.max_priority_fee_per_gas,
             y_parity := if TransactionField.YParity ∈ fields then
               tx.signature.bind Signature.y_parity else acc.y_parity }) := by
  intro fields
  induction fields with
  | nil =>
      intro acc
      simp [pick_fields_loop, M.pure]
  | cons f fields ih =>
      intro acc
      cases f
      case Status =>
        cases rcpt with
        | some rc =>
            simp only [pick_fields_loop, hrc, M.lift, M.bind, ih]
            simp [List.count_cons, List.mem_cons, List.replicate_succ]
        | none =>
            simp only [pick_fields_loop, hrc, M.lift, M.bind, ih]
            simp [List.count_cons, List.mem_cons, List.replicate_succ]
      all_goals
        simp only [pick_fields_loop]
        rw [ih]
        simp [List.count_cons, List.mem_cons]

/-- Full characterization of `pick_transaction_fields` when chain
conversion and the receipt lookup succeed: one chain conversion plus one
receipt fetch per requested `Status` occurrence, and every requested slot
holds the source datum while every unrequested slot stays unset. -/
lemma pick_transaction_fields_spec (env : Env) (tx : RpcTransaction)
    (fields : List TransactionField) (p : RootProvider) (c : ChainOrRpc)
    {ch : Chain} (hch : env.to_chain c = .ok ch)
    {rcpt : Option Receipt} (hrc : p.get_transaction_receipt tx.hash = .ok rcpt) :
    pick_transaction_fields env tx fields p c =
      (Call.toChain c ::
         List.replicate (fields.count .Status) (Call.getTransactionReceipt tx.hash),
       .ok { chain := if TransactionField.Chain ∈ fields then some ch else none,
             transaction_type := if TransactionField.TransactionType ∈ fields then
               tx.transaction_type else none,
             hash := if TransactionField.Hash ∈ fields then some tx.hash else none,
             «from» := if TransactionField.From ∈ fields then some tx.«from» else none,
             «to» := if TransactionField.To ∈ fields then tx.«to» else none,
             data := if TransactionField.Data ∈ fields then some tx.input else none,
             value := if TransactionField.Value ∈ fields then some tx.value else none,
             gas_price := if TransactionField.GasPrice ∈ fields then tx.gas_price else none,
             gas := if TransactionField.Gas ∈ fields then some tx.gas else none,
             status := if TransactionField.Status ∈ fields then
               rcpt.map Receipt.status else none,
             chain_id := if TransactionField.ChainId ∈ fields then tx.chain_id else none,
             v := if TransactionField.V ∈ fields then tx.signature.map Signature.v else none,
             r := if TransactionField.R ∈ fields then tx.signature.map Signature.r else none,
             s := if TransactionField.S ∈ fields then tx.signature.map Signature.s else none,
             max_fee_per_blob_gas := if TransactionField.MaxFeePerBlobGas ∈ fields then
               tx.max_fee_per_blob_gas else none,
             max_fee_per_gas := if TransactionField.MaxFeePerGas ∈ fields then
               tx.max_fee_per_gas else none,
             max_priority_fee_per_gas := if TransactionField.MaxPriorityFeePerGas ∈ fields then
               tx.max_priority_fee_per_gas else none,
             y_parity := if TransactionField.YParity ∈ fields then
               tx.signature.bind Signature.y_parity else none }) := by
  simp only [pick_transaction_fields, M.lift, hch, M.bind]
  rw [pick_fields_loop_spec tx p ch hrc fields {}]
  simp

/-- Characterization of the account field loop on an always-succeeding
provider: each slot is populated exactly when its field is requested. -/
lemma get_account_loop_spec (p : RootProvider) (bal cnt : Address → Nat)
    (cod : Address → List Nat)
    (hb : ∀ a, p.get_balance a = .ok (bal a))
    (hn : ∀ a, p.get_transaction_count a = .ok (cnt a))
    (hc : ∀ a, p.get_code_at a = .ok (cod a)) :
    ∀ (fields : List AccountField) (address : Address) (acc : AccountQueryRes),
    (get_account_loop address fields p acc).2 = .ok
      { balance := if AccountField.Balance ∈ fields then some (bal address) else acc.balance,
        nonce := if AccountField.Nonce ∈ fields then some (cnt address) else acc.nonce,
        address := if AccountField.Address ∈ fields then some address else acc.address,
        code := if AccountField.Code ∈ fields then some (cod address) else acc.code } := by
  intro fields
  induction fields with
  | nil => intro address acc; simp [get_account_loop, M.pure]
  | cons f fields ih =>
      intro address acc
      cases f <;>
        simp only [get_account_loop, M.lift, M.bind, hb, hn, hc, ih] <;>
        simp [List.mem_cons]

/-- `get_transactions_by_ids` on a provider that answers every hash:
the result keeps, in order, exactly the found transactions, silently
dropping the not-found hashes. -/
lemma get_transactions_by_ids_spec (p : RootProvider)
    (lookup : B256 → Option RpcTransaction) (ids : List B256)
    (h : ∀ i ∈ ids, p.get_transaction_by_hash i = .ok (lookup i)) :
    (get_transactions_by_ids ids p).2 = .ok (ids.filterMap lookup) := by
  rw [get_transactions_by_ids]
  rw [M.bind_out_ok (try_join_all_map_out (f := lookup)
    fun i hi => by simp [M.lift, h i hi])]
  simp [M.pure, List.filterMap_map]

/-- The per-chain loop on an all-successful environment: the final
sequence is the accumulator followed by, per chain in order, the
projected-then-filtered fetched transactions. -/
lemma resolve_chain_loop_spec (env : Env) (tx : Transaction)
    (url : ChainOrRpc → String) (fetched : ChainOrRpc → List RpcTransaction)
    (proj : ChainOrRpc → RpcTransaction → TransactionQueryRes) :
    ∀ (chains : List ChainOrRpc) (acc : List TransactionQueryRes),
    (∀ c ∈ chains, env.rpc_url c = .ok (url c)) →
    (∀ c ∈ chains, (fetch_source tx (env.on_http (url c))).2 = .ok (fetched c)) →
    (∀ c ∈ chains, ∀ t ∈ fetched c,
        (pick_transaction_fields env t tx.fields (env.on_http (url c)) c).2 =
          .ok (proj c t)) →
    (resolve_chain_loop env tx chains acc).2 =
      .ok (acc ++ chains.flatMap fun c =>
        ((fetched c).map (proj c)).filter fun t => tx.filter t) := by
  intro chains
  induction chains with
  | nil => intro acc _ _ _; simp [resolve_chain_loop, M.pure]
  | cons c rest ih =>
      intro acc hurl hfetch hproj
      have hmem : c ∈ c :: rest := List.mem_cons_self c rest
      have hu := hurl c hmem
      have hf := hfetch c hmem
      have hp : (try_join_all ((fetched c).map fun t =>
          pick_transaction_fields env t tx.fields (env.on_http (url c)) c)).2 =
          .ok ((fetched c).map (proj c)) :=
        try_join_all_map_out fun t ht => hproj c hmem t ht
      have htail := ih (acc ++ ((fetched c).map (proj c)).filter fun t => tx.filter t)
        (fun x hx => hurl x (List.mem_cons_of_mem c hx))
        (fun x hx => hfetch x (List.mem_cons_of_mem c hx))
        (fun x hx => hproj x (List.mem_cons_of_mem c hx))
      rw [resolve_chain_loop]
      rw [M.bind_out_ok (show (M.ofOutcome (env.rpc_url c)).2 = .ok (url c) by
        simp [M.ofOutcome, hu])]
      rw [M.bind_out_ok
        (show (M.lift (Call.buildProvider (url c)) (Outcome.ok ())).2 = .ok () from rfl)]
      rw [M.bind_out_ok hf]
      rw [M.bind_out_ok hp]
      rw [htail]
      simp [List.flatMap_cons, List.append_assoc]

/-- Claim C3: a transaction spec with neither an explicit id list nor a
block-based filter makes `resolve_transaction_query` fail with the
missing-hash-or-filter error, with an empty remote-call trace (so before
any provider is constructed or network call attempted), for every chain
list. -/
theorem resolve_transaction_query_missing_filter_fails_early (env : Env)
    (tx : Transaction) (chains : List ChainOrRpc)
    (hids : tx.ids = none) (hbf : tx.has_block_filter = false) :
    resolve_transaction_query env tx chains =
      ([], .err .MissingTransactionHashOrFilter) := by
  simp [resolve_transaction_query, hids, hbf, M.ofOutcome]

/-- Witness for claim C3 at a concrete spec and a non-empty chain list. -/
theorem resolve_transaction_query_missing_filter_fails_early_witness :
    txNone.ids = none ∧ txNone.has_block_filter = false ∧
    resolve_transaction_query envA txNone [ChainOrRpc.Chain Chain.Ethereum] =
      ([], .err .MissingTransactionHashOrFilter) :=
  ⟨rfl, rfl,
   resolve_transaction_query_missing_filter_fails_early envA txNone
     [ChainOrRpc.Chain Chain.Ethereum] rfl rfl⟩

/-- Claim C9: `to_address` returns an address unchanged (with no remote
call); its result on any input depends only on the canonical-chain
components of the environment, not on the surrounding query's provider or
target chain; a failing canonical URL parse or a failing lookup both yield
the name-resolution error. -/
theorem to_address_contract (env env2 : Env) (noa : NameOrAddress) (a : Address)
    (n : String) :
    to_address env (.Address a) = ([], .ok a)
    ∧ (env.eth_url_parses = env2.eth_url_parses →
        env.ens_resolve = env2.ens_resolve →
        to_address env noa = to_address env2 noa)
    ∧ (env.eth_url_parses = false →
        to_address env (.Name n) = ([], .err .EnsResolution))
    ∧ (∀ e, env.ens_resolve n = .err e →
        (to_address env (.Name n)).2 = .err .EnsResolution) := by
  refine ⟨rfl, ?_, ?_, ?_⟩
  · intro h1 h2
    cases noa with
    | Address a2 => rfl
    | Name nm => simp [to_address, h1, h2]
  · intro h
    simp [to_address, h, M.ofOutcome]
  · intro e he
    by_cases hp : env.eth_url_parses
    · simp [to_address, hp, M.lift, M.bind, mapErrToEns, he]
    · simp [to_address, hp, M.ofOutcome]

/-- Witness for claim C9: an address passes through, and an environment
differing only outside the canonical components resolves a name
identically. -/
theorem to_address_contract_witness :
    to_address envA (.Address 4) = ([], .ok 4) ∧
    to_address { envA with rpc_url := fun _ => .err (.Provider "x") } (.Name "vitalik.eth") =
      to_address envA (.Name "vitalik.eth") :=
  ⟨(to_address_contract envA envA (.Address 4) 4 "x").1,
   (to_address_contract { envA with rpc_url := fun _ => .err (.Provider "x") } envA
      (.Name "vitalik.eth") 4 "x").2.1 rfl rfl⟩

/-- Counterexample to claim C4 as stated: the signature field `V` is in
the requested list, the projection succeeds, and yet the `v` slot of the
result is unset, because the fetched transaction carries no signature. -/
theorem pick_transaction_fields_populated_iff_cex :
    TransactionField.V ∈ [TransactionField.V]
    ∧ ((pick_transaction_fields envA txNoSig [TransactionField.V] provA
        (ChainOrRpc.Chain Chain.Ethereum)).2.okOr default).v = none
    ∧ (pick_transaction_fields envA txNoSig [TransactionField.V] provA
        (ChainOrRpc.Chain Chain.Ethereum)).2.isOk = true :=
  ⟨by decide, rfl, rfl⟩

/-- Claim C4 (amended): every field not in the requested list remains
unset, and a requested field carries exactly the source datum, which for
the optional source fields (type, to, gas price, chain id, signature
components, fee fields, y-parity, receipt status) may itself be absent,
leaving the slot unset even though the field was requested. -/
theorem pick_transaction_fields_unrequested_unset (env : Env) (tx : RpcTransaction)
    (fields : List TransactionField) (p : RootProvider) (c : ChainOrRpc)
    (ch : Chain) (rcpt : Option Receipt)
    (hch : env.to_chain c = .ok ch)
    (hrc : p.get_transaction_receipt tx.hash = .ok rcpt) :
    (pick_transaction_fields env tx fields p c).2 =
      .ok { chain := if TransactionField.Chain ∈ fields then some ch else none,
            transaction_type := if TransactionField.TransactionType ∈ fields then
              tx.transaction_type else none,
            hash := if TransactionField.Hash ∈ fields then some tx.hash else none,
            «from» := if TransactionField.From ∈ fields then some tx.«from» else none,
            «to» := if TransactionField.To ∈ fields then tx.«to» else none,
            data := if TransactionField.Data ∈ fields then some tx.input else none,
            value := if TransactionField.Value ∈ fields then some tx.value else none,
            gas_price := if TransactionField.GasPrice ∈ fields then tx.gas_price else none,
            gas := if TransactionField.Gas ∈ fields then some tx.gas else none,
            status := if TransactionField.Status ∈ fields then
              rcpt.map Receipt.status else none,
            chain_id := if TransactionField.ChainId ∈ fields then tx.chain_id else none,
            v := if TransactionField.V ∈ fields then tx.signature.map Signature.v else none,
            r := if TransactionField.R ∈ fields then tx.signature.map Signature.r else none,
            s := if TransactionField.S ∈ fields then tx.signature.map Signature.s else none,
            max_fee_per_blob_gas := if TransactionField.MaxFeePerBlobGas ∈ fields then
              tx.max_fee_per_blob_gas else none,
            max_fee_per_gas := if TransactionField.MaxFeePerGas ∈ fields then
              tx.max_fee_per_gas else none,
            max_priority_fee_per_gas := if TransactionField.MaxPriorityFeePerGas ∈ fields then
              tx.max_priority_fee_per_gas else none,
            y_parity := if TransactionField.YParity ∈ fields then
              tx.signature.bind Signature.y_parity else none } := by
  rw [pick_transaction_fields_spec env tx fields p c hch hrc]

/-- Witness for claim C4 (amended): requesting `V` and `Hash` on a
signatureless transaction populates `hash` and leaves `v` unset. -/
theorem pick_transaction_fields_unrequested_unset_witness :
    envA.to_chain (ChainOrRpc.Chain Chain.Ethereum) = .ok Chain.Ethereum ∧
    (pick_transaction_fields envA txNoSig [TransactionField.V, TransactionField.Hash]
        provA (ChainOrRpc.Chain Chain.Ethereum)).2 =
      .ok { hash := some txNoSig.hash, v := none } :=
  ⟨rfl, by
    rw [pick_transaction_fields_unrequested_unset envA txNoSig
      [TransactionField.V, TransactionField.Hash] provA (ChainOrRpc.Chain Chain.Ethereum)
      Chain.Ethereum (some { status := true }) rfl rfl]
    decide⟩

/-- Claim C7: when the requested field set contains `Status` (once, as a
set), the projection issues exactly one receipt fetch for the transaction,
and if the provider returns no receipt the `status` slot is left unset
while the projection still succeeds. -/
theorem pick_transaction_fields_status_receipt_call (env : Env) (tx : RpcTransaction)
    (fields : List TransactionField) (p : RootProvider) (c : ChainOrRpc)
    (ch : Chain) (rcpt : Option Receipt)
    (hch : env.to_chain c = .ok ch)
    (hrc : p.get_transaction_receipt tx.hash = .ok rcpt)
    (hcount : fields.count TransactionField.Status = 1) :
    (pick_transaction_fields env tx fields p c).1.count
        (Call.getTransactionReceipt tx.hash) = 1
    ∧ (rcpt = none →
        ∃ res, (pick_transaction_fields env tx fields p c).2 = .ok res ∧
          res.status = none) := by
  rw [pick_transaction_fields_spec env tx fields p c hch hrc]
  constructor
  · simp [hcount, List.count_cons]
  · intro hn
    subst hn
    refine ⟨_, rfl, ?_⟩
    simp

/-- Witness for claim C7 at a concrete transaction, once with a receipt
available and once with none. -/
theorem pick_transaction_fields_status_receipt_call_witness :
    [TransactionField.Status].count TransactionField.Status = 1 ∧
    (pick_transaction_fields envA txA [TransactionField.Status] provA
        (ChainOrRpc.Chain Chain.Ethereum)).1.count
        (Call.getTransactionReceipt txA.hash) = 1 ∧
    ∃ res, (pick_transaction_fields envA txA [TransactionField.Status] provNoRcpt
        (ChainOrRpc.Chain Chain.Ethereum)).2 = .ok res ∧ res.status = none :=
  ⟨by decide,
   (pick_transaction_fields_status_receipt_call envA txA [TransactionField.Status] provA
     (ChainOrRpc.Chain Chain.Ethereum) Chain.Ethereum (some { status := true })
     rfl rfl (by decide)).1,
   (pick_transaction_fields_status_receipt_call envA txA [TransactionField.Status] provNoRcpt
     (ChainOrRpc.Chain Chain.Ethereum) Chain.Ethereum none
     rfl rfl (by decide)).2 rfl⟩

/-- Claim C8: `resolve_account_query` is all-or-nothing: if any entity id
fails with a typed error (wrong id kind, name resolution, or remote-call
failure), the whole batch returns a typed error and no result list. -/
theorem resolve_account_query_all_or_nothing (env : Env) (provider : RootProvider)
    (fields : List AccountField) (entity_ids : List EntityId) (bad : EntityId)
    (hmem : bad ∈ entity_ids)
    (hfail : ∃ e, (resolve_account_one env provider fields bad).2 = .err e)
    (hnp : ∀ i ∈ entity_ids,
      ((resolve_account_one env provider fields i).2).isPanic = false) :
    ∃ e, (resolve_account_query env entity_ids fields provider).2 = .err e := by
  simp only [resolve_account_query]
  refine try_join_all_map_err hmem hfail fun y hy m hm => ?_
  have h2 := hnp y hy
  rw [hm] at h2
  simp [Outcome.isPanic] at h2

/-- Witness for claim C8: a batch holding one good account id and one
transaction id fails as a whole. -/
theorem resolve_account_query_all_or_nothing_witness :
    EntityId.Transaction 9 ∈ [EntityId.Account (.Address 4), EntityId.Transaction 9] ∧
    ∃ e, (resolve_account_query envA
      [EntityId.Account (.Address 4), EntityId.Transaction 9]
      [AccountField.Balance] provA).2 = .err e :=
  ⟨by decide,
   resolve_account_query_all_or_nothing envA provA [AccountField.Balance]
     [EntityId.Account (.Address 4), EntityId.Transaction 9] (EntityId.Transaction 9)
     (by decide) ⟨.MismatchEntityAndEntityId, rfl⟩ (by decide)⟩

/-- Claim C5 (amended): whenever the Block Resolver returns a block
carrying only transaction hashes where full bodies were required — on the
single-block-number path or anywhere in the block list of the range path —
`resolve_transaction_query` panics with the human-readable message
"Block transactions should be full" (the Rust `panic!`), rather than
returning a typed error to the caller. -/
theorem resolve_transaction_query_hashes_block_panics (env : Env)
    (tx : Transaction) (c : ChainOrRpc) (rest : List ChainOrRpc) (url : String)
    (hids : tx.ids = none)
    (hbf : tx.has_block_filter = true)
    (hurl : env.rpc_url c = .ok url)
    (hcase :
      (∃ n block, tx.get_block_id_filter = .ok (.Number n) ∧
        (env.on_http url).get_block n true = .ok block ∧
        ∀ txs, block.transactions ≠ .Full txs) ∨
      (∃ r nums blocks, tx.get_block_id_filter = .ok (.Range r) ∧
        (env.on_http url).resolve_block_numbers r = .ok nums ∧
        (env.on_http url).batch_get_blocks nums true = .ok blocks ∧
        ∃ b ∈ blocks, ∀ txs, b.transactions ≠ .Full txs)) :
    (resolve_transaction_query env tx (c :: rest)).2 =
      .panic "Block transactions should be full" := by
  rw [resolve_transaction_query, if_neg (by simp [hbf])]
  rw [resolve_chain_loop]
  rw [M.bind_out_ok (show (M.ofOutcome (env.rpc_url c)).2 = .ok url by
    simp [M.ofOutcome, hurl])]
  rw [M.bind_out_ok
    (show (M.lift (Call.buildProvider url) (Outcome.ok ())).2 = .ok () from rfl)]
  have hf : (fetch_source tx (env.on_http url)).2 =
      .panic "Block transactions should be full" := by
    rcases hcase with ⟨n, block, hfil, hblk, hnotfull⟩ |
      ⟨r, nums, blocks, hfil, hnums, hblocks, hbad⟩
    · rw [fetch_source, hids]
      rw [M.bind_out_ok (show (M.ofOutcome tx.get_block_id_filter).2 =
        .ok (BlockId.Number n) by simp [M.ofOutcome, hfil])]
      rw [get_transactions_by_block_id]
      rw [M.bind_out_ok (show (M.lift (Call.getBlock n true)
        ((env.on_http url).get_block n true)).2 = .ok block by simp [M.lift, hblk])]
      cases hbt : block.transactions with
      | Full txs => exact absurd hbt (hnotfull txs)
      | Hashes hs => simp [M.ofOutcome, fullTxs, hbt]
      | Uncle => simp [M.ofOutcome, fullTxs, hbt]
    · rw [fetch_source, hids]
      rw [M.bind_out_ok (show (M.ofOutcome tx.get_block_id_filter).2 =
        .ok (BlockId.Range r) by simp [M.ofOutcome, hfil])]
      rw [get_transactions_by_block_id]
      rw [M.bind_out_ok (show (M.lift (Call.resolveBlockNumbers r)
        ((env.on_http url).resolve_block_numbers r)).2 = .ok nums by
          simp [M.lift, hnums])]
      rw [M.bind_out_ok (show (M.lift (Call.batchGetBlocks nums true)
        ((env.on_http url).batch_get_blocks nums true)).2 = .ok blocks by
          simp [M.lift, hblocks])]
      simp [M.ofOutcome, flattenFullTxs_panic blocks hbad]
  rw [M.bind_out_panic hf]

/-- Counterexample to claim C5 as stated: on a hashes-only block the
query's outcome is a panic, not a typed error surfaced to the caller. -/
theorem block_transactions_not_full_typed_error_cex :
    (resolve_transaction_query envH txC5 [ChainOrRpc.Chain Chain.Ethereum]).2 =
      .panic "Block transactions should be full"
    ∧ (resolve_transaction_query envH txC5
        [ChainOrRpc.Chain Chain.Ethereum]).2.isTypedError = false :=
  ⟨rfl, rfl⟩

/-- Witness for claim C5 (amended) at a concrete hashes-only block, once
through the single-block-number path and once through the range path. -/
theorem resolve_transaction_query_hashes_block_panics_witness :
    txC5.ids = none ∧ blockH.transactions = .Hashes [9] ∧
    (resolve_transaction_query envH txC5 [ChainOrRpc.Chain Chain.Ethereum]).2 =
      .panic "Block transactions should be full" ∧
    (resolve_transaction_query envH txQRange [ChainOrRpc.Chain Chain.Ethereum]).2 =
      .panic "Block transactions should be full" :=
  ⟨rfl, rfl,
   resolve_transaction_query_hashes_block_panics envH txC5
     (ChainOrRpc.Chain Chain.Ethereum) [] "u" rfl rfl rfl
     (Or.inl ⟨.Number 1, blockH, rfl, rfl,
       fun txs h => BlockTransactions.noConfusion
         (show BlockTransactions.Hashes [9] = BlockTransactions.Full txs from h)⟩),
   resolve_transaction_query_hashes_block_panics envH txQRange
     (ChainOrRpc.Chain Chain.Ethereum) [] "u" rfl rfl rfl
     (Or.inr ⟨rQ, [1], [blockH], rfl, rfl, rfl,
       ⟨blockH, by decide,
        fun txs h => BlockTransactions.noConfusion
          (show BlockTransactions.Hashes [9] = BlockTransactions.Full txs from h)⟩⟩)⟩

/-- Claim C10: the chain-descriptor conversion happens before any field
is handled, so when it fails the projection fails with that error even
though `Chain` is not among the requested fields, and hence the whole
query fails. -/
theorem pick_transaction_fields_chain_conversion_first (env : Env)
    (qtx : Transaction) (tx : RpcTransaction) (p : RootProvider)
    (c : ChainOrRpc) (e : Err) (h : B256) (url : String)
    (hch : env.to_chain c = .err e)
    (hnochain : TransactionField.Chain ∉ qtx.fields) :
    (pick_transaction_fields env tx qtx.fields p c).2 = .err e
    ∧ (qtx.ids = some [h] → env.rpc_url c = .ok url →
       (env.on_http url).get_transaction_by_hash h = .ok (some tx) →
       (resolve_transaction_query env qtx [c]).2 = .err e) := by
  have hpk : ∀ (p2 : RootProvider),
      (pick_transaction_fields env tx qtx.fields p2 c).2 = .err e := by
    intro p2
    simp [pick_transaction_fields, M.lift, hch, M.bind]
  refine ⟨hpk p, ?_⟩
  intro hids hurl hlk
  rw [resolve_transaction_query, if_neg (by simp [hids])]
  rw [resolve_chain_loop]
  rw [M.bind_out_ok (show (M.ofOutcome (env.rpc_url c)).2 = .ok url by
    simp [M.ofOutcome, hurl])]
  rw [M.bind_out_ok
    (show (M.lift (Call.buildProvider url) (Outcome.ok ())).2 = .ok () from rfl)]
  have hf : (fetch_source qtx (env.on_http url)).2 = .ok [tx] := by
    rw [fetch_source, hids]
    have h2 := get_transactions_by_ids_spec (env.on_http url) (fun _ => some tx) [h]
      (by intro i hi; simp at hi; subst hi; exact hlk)
    simpa using h2
  rw [M.bind_out_ok hf]
  have hj : (try_join_all (([tx] : List RpcTransaction).map fun t =>
      pick_transaction_fields env t qtx.fields (env.on_http url) c)).2 = .err e := by
    rw [List.map_cons, List.map_nil, try_join_all]
    exact M.bind_out_err (hpk (env.on_http url)) _
  rw [M.bind_out_err hj]

/-- Witness for claim C10: a failing conversion aborts a query that never
requested the `Chain` field. -/
theorem pick_transaction_fields_chain_conversion_first_witness :
    TransactionField.Chain ∉ txQId1.fields ∧
    (resolve_transaction_query envErr txQId1 [ChainOrRpc.Chain Chain.Ethereum]).2 =
      .err (.Provider "boom") :=
  ⟨by decide,
   (pick_transaction_fields_chain_conversion_first envErr txQId1 txA provA
     (ChainOrRpc.Chain Chain.Ethereum) (.Provider "boom") 1 "u" rfl (by decide)).2
     rfl rfl rfl⟩

/-- Claim C6: with an explicit id list on a provider that answers every
hash, the query succeeds and returns, per chain in order, the projection
of exactly the found transactions — a not-found hash is silently absent
while every found hash still yields a record. -/
theorem resolve_transaction_query_not_found_id_dropped (env : Env)
    (tx : Transaction) (chains : List ChainOrRpc) (ids : List B256)
    (url : ChainOrRpc → String)
    (lookup : ChainOrRpc → B256 → Option RpcTransaction)
    (proj : ChainOrRpc → RpcTransaction → TransactionQueryRes)
    (hids : tx.ids = some ids)
    (hurl : ∀ c ∈ chains, env.rpc_url c = .ok (url c))
    (hlk : ∀ c ∈ chains, ∀ i ∈ ids,
        (env.on_http (url c)).get_transaction_by_hash i = .ok (lookup c i))
    (hproj : ∀ c ∈ chains, ∀ t ∈ ids.filterMap (lookup c),
        (pick_transaction_fields env t tx.fields (env.on_http (url c)) c).2 =
          .ok (proj c t)) :
    (resolve_transaction_query env tx chains).2 =
      .ok (chains.flatMap fun c =>
        ((ids.filterMap (lookup c)).map (proj c)).filter fun t => tx.filter t) := by
  rw [resolve_transaction_query, if_neg (by simp [hids])]
  have h2 := resolve_chain_loop_spec env tx url (fun c => ids.filterMap (lookup c))
    proj chains []
    hurl
    (fun c hc => by
      rw [fetch_source, hids]
      exact get_transactions_by_ids_spec _ _ _ (hlk c hc))
    hproj
  simpa using h2

/-- Witness for claim C6: of the two requested hashes one is not found;
the query succeeds and the not-found id is simply absent. -/
theorem resolve_transaction_query_not_found_id_dropped_witness :
    txQIds.ids = some [1, 3] ∧
    provA.get_transaction_by_hash 3 = .ok none ∧
    (resolve_transaction_query envA txQIds [ChainOrRpc.Chain Chain.Ethereum]).2 =
      .ok ([ChainOrRpc.Chain Chain.Ethereum].flatMap fun c =>
        ((([1, 3] : List B256).filterMap fun i =>
            if i = 1 then some txA else none).map
          fun t => ({ hash := some t.hash } : TransactionQueryRes)).filter
          fun t => txQIds.filter t) :=
  ⟨rfl, by decide,
   resolve_transaction_query_not_found_id_dropped envA txQIds
     [ChainOrRpc.Chain Chain.Ethereum] [1, 3] (fun _ => "u")
     (fun _ i => if i = 1 then some txA else none)
     (fun _ t => { hash := some t.hash })
     rfl (fun c _ => rfl) (fun c _ i _ => rfl)
     (by
       intro c hc
       have hce : c = ChainOrRpc.Chain Chain.Ethereum := by simpa using hc
       subst hce
       intro t _
       rfl)⟩

/-- Claim C1: for a block-range filter, the result is exactly the union
of the transactions embedded in every block of the resolved range, each
projected to the requested fields, with records failing any predicate
discarded and per-chain results concatenated in chain-list order. -/
theorem resolve_transaction_query_block_range_union (env : Env)
    (tx : Transaction) (r : BlockRange) (chains : List ChainOrRpc)
    (url : ChainOrRpc → String) (nums : ChainOrRpc → List Nat)
    (blocks : ChainOrRpc → List Block)
    (proj : ChainOrRpc → RpcTransaction → TransactionQueryRes)
    (hids : tx.ids = none)
    (hbf : tx.has_block_filter = true)
    (hfil : tx.get_block_id_filter = .ok (.Range r))
    (hurl : ∀ c ∈ chains, env.rpc_url c = .ok (url c))
    (hnums : ∀ c ∈ chains,
      (env.on_http (url c)).resolve_block_numbers r = .ok (nums c))
    (hblocks : ∀ c ∈ chains,
      (env.on_http (url c)).batch_get_blocks (nums c) true = .ok (blocks c))
    (hfull : ∀ c ∈ chains, ∀ b ∈ blocks c, ∃ txs, b.transactions = .Full txs)
    (hproj : ∀ c ∈ chains,
      ∀ t ∈ (blocks c).flatMap fun b => b.transactions.fullList,
        (pick_transaction_fields env t tx.fields (env.on_http (url c)) c).2 =
          .ok (proj c t)) :
    (resolve_transaction_query env tx chains).2 =
      .ok (chains.flatMap fun c =>
        (((blocks c).flatMap fun b => b.transactions.fullList).map (proj c)).filter
          fun t => tx.filter t) := by
  rw [resolve_transaction_query, if_neg (by simp [hbf])]
  have h2 := resolve_chain_loop_spec env tx url
    (fun c => (blocks c).flatMap fun b => b.transactions.fullList) proj chains []
    hurl
    (fun c hc => by
      rw [fetch_source, hids]
      rw [M.bind_out_ok (show (M.ofOutcome tx.get_block_id_filter).2 =
        .ok (BlockId.Range r) by simp [M.ofOutcome, hfil])]
      rw [get_transactions_by_block_id]
      rw [M.bind_out_ok (show (M.lift (Call.resolveBlockNumbers r)
        ((env.on_http (url c)).resolve_block_numbers r)).2 = .ok (nums c) by
          simp [M.lift, hnums c hc])]
      rw [M.bind_out_ok (show (M.lift (Call.batchGetBlocks (nums c) true)
        ((env.on_http (url c)).batch_get_blocks (nums c) true)).2 = .ok (blocks c) by
          simp [M.lift, hblocks c hc])]
      simp [M.ofOutcome, flattenFullTxs_ok (blocks c) (hfull c hc)])
    hproj
  simpa using h2

/-- Witness for claim C1 at a concrete one-chain range query. -/
theorem resolve_transaction_query_block_range_union_witness :
    txQRange.ids = none ∧
    txQRange.get_block_id_filter = .ok (.Range rQ) ∧
    (resolve_transaction_query envA txQRange [ChainOrRpc.Chain Chain.Ethereum]).2 =
      .ok ([ChainOrRpc.Chain Chain.Ethereum].flatMap fun _ =>
        ((([blockA] : List Block).flatMap fun b => b.transactions.fullList).map
          fun t => ({ hash := some t.hash } : TransactionQueryRes)).filter
          fun t => txQRange.filter t) :=
  ⟨rfl, rfl,
   resolve_transaction_query_block_range_union envA txQRange rQ
     [ChainOrRpc.Chain Chain.Ethereum] (fun _ => "u") (fun _ => [1]) (fun _ => [blockA])
     (fun _ t => { hash := some t.hash })
     rfl rfl rfl (fun c _ => rfl) (fun c _ => rfl) (fun c _ => rfl)
     (by
       intro c _ b hb
       have hbe : b = blockA := by simpa using hb
       subst hbe
       exact ⟨[txA], rfl⟩)
     (by
       intro c hc
       have hce : c = ChainOrRpc.Chain Chain.Ethereum := by simpa using hc
       subst hce
       intro t _
       rfl)⟩

/-- Claim C2: on an all-Account batch where every name resolution and
remote call succeeds, `resolve_account_query` returns exactly one record
per input identifier in input order, and each account slot is populated
iff its field appears in the requested list. -/
theorem resolve_account_query_one_result_per_input (env : Env)
    (provider : RootProvider) (entity_ids : List EntityId)
    (fields : List AccountField) (addrOf : EntityId → Address)
    (bal cnt : Address → Nat) (cod : Address → List Nat)
    (hb : ∀ a, provider.get_balance a = .ok (bal a))
    (hn : ∀ a, provider.get_transaction_count a = .ok (cnt a))
    (hc : ∀ a, provider.get_code_at a = .ok (cod a))
    (hacc : ∀ id ∈ entity_ids, ∃ noa, id = .Account noa ∧
        (to_address env noa).2 = .ok (addrOf id)) :
    (resolve_account_query env entity_ids fields provider).2 =
      .ok (entity_ids.map fun id =>
        { balance := if AccountField.Balance ∈ fields then
            some (bal (addrOf id)) else none,
          nonce := if AccountField.Nonce ∈ fields then some (cnt (addrOf id)) else none,
          address := if AccountField.Address ∈ fields then some (addrOf id) else none,
          code := if AccountField.Code ∈ fields then some (cod (addrOf id)) else none })
    ∧ ∀ res ∈ (resolve_account_query env entity_ids fields provider).2.okOr [],
        (res.balance.isSome ↔ AccountField.Balance ∈ fields)
        ∧ (res.nonce.isSome ↔ AccountField.Nonce ∈ fields)
        ∧ (res.address.isSome ↔ AccountField.Address ∈ fields)
        ∧ (res.code.isSome ↔ AccountField.Code ∈ fields) := by
  have hone : ∀ id ∈ entity_ids, (resolve_account_one env provider fields id).2 =
      .ok { balance := if AccountField.Balance ∈ fields then
              some (bal (addrOf id)) else none,
            nonce := if AccountField.Nonce ∈ fields then some (cnt (addrOf id)) else none,
            address := if AccountField.Address ∈ fields then some (addrOf id) else none,
            code := if AccountField.Code ∈ fields then
              some (cod (addrOf id)) else none } := by
    intro id hid
    obtain ⟨noa, rfl, haddr⟩ := hacc id hid
    rw [resolve_account_one]
    rw [M.bind_out_ok haddr]
    rw [get_account]
    have h3 := get_account_loop_spec provider bal cnt cod hb hn hc fields
      (addrOf (EntityId.Account noa)) {}
    simpa using h3
  have hmain : (resolve_account_query env entity_ids fields provider).2 =
      .ok (entity_ids.map fun id =>
        { balance := if AccountField.Balance ∈ fields then
            some (bal (addrOf id)) else none,
          nonce := if AccountField.Nonce ∈ fields then some (cnt (addrOf id)) else none,
          address := if AccountField.Address ∈ fields then some (addrOf id) else none,
          code := if AccountField.Code ∈ fields then
            some (cod (addrOf id)) else none }) := by
    rw [resolve_account_query]
    exact try_join_all_map_out hone
  refine ⟨hmain, ?_⟩
  intro res hres
  rw [hmain] at hres
  simp only [Outcome.okOr] at hres
  obtain ⟨id, _, rfl⟩ := List.mem_map.mp hres
  refine ⟨?_, ?_, ?_, ?_⟩
  · by_cases hmem : AccountField.Balance ∈ fields <;> simp [hmem]
  · by_cases hmem : AccountField.Nonce ∈ fields <;> simp [hmem]
  · by_cases hmem : AccountField.Address ∈ fields <;> simp [hmem]
  · by_cases hmem : AccountField.Code ∈ fields <;> simp [hmem]

/-- Witness for claim C2 at a concrete single-account batch. -/
theorem resolve_account_query_one_result_per_input_witness :
    (∀ a, provA.get_balance a = .ok (a + 100)) ∧
    (resolve_account_query envA [EntityId.Account (.Address 4)]
        [AccountField.Balance, AccountField.Address] provA).2 =
      .ok [{ balance := some 104, nonce := none, address := some 4, code := none }] :=
  ⟨fun _ => rfl, by
    rw [(resolve_account_query_one_result_per_input envA provA
      [EntityId.Account (.Address 4)] [AccountField.Balance, AccountField.Address]
      (fun _ => 4) (fun a => a + 100) (fun _ => 5) (fun _ => [0])
      (fun _ => rfl) (fun _ => rfl) (fun _ => rfl)
      (by
        intro id hid
        have hide : id = EntityId.Account (.Address 4) := by simpa using hid
        subst hide
        exact ⟨.Address 4, rfl, rfl⟩)).1]
    decide⟩
